import Mathlib

/-!
Shallow embedding of `src/store/InodeStore.ts` (class `InodeStore`) from the
ethny-tracker/ethny repository, together with proofs of the specification's
claims about it.

Modelling choices:
* The MobX-observable fields of the class become a Lean structure
  `InodeStore`.  The `rootStore` reference and the `db` handle carry no state
  relevant to the store's own observable behaviour, so the structure keeps
  only the contract address the database connection was scoped to.
* The JavaScript number field `totalInodesToSync` is initialised to
  `Infinity` and otherwise holds the non-negative integers delivered by the
  Index Database, so it is embedded as an extended natural `ℕ∞`.
* Calls into the external `InodeDatabase` (`getSyncState`, `search`,
  `latest`, `clearData`) are embedded by passing the settled outcome of the
  call (a value or a rejection) as an explicit argument.  An async method
  returns the pair of the store state after the method settles and the
  rejection it propagates to its caller (`none` when it resolves).
-/

/-- A record returned by the Index Database; opaque to the store. -/
structure Inode where
  ident : Nat
deriving DecidableEq, Repr

/-- A rejection value coming from the Index Database. -/
structure DbErr where
  msg : String
deriving DecidableEq, Repr

/-- Result shape of `db.search` / `db.latest` (`Pageable` in `lib/db`). -/
structure Pageable where
  data : List Inode
  total : Nat
deriving DecidableEq, Repr

/-- Result shape of `db.getSyncState` and of `startSync` snapshots. -/
structure SyncState where
  numSynced : Nat
  total : Nat
deriving DecidableEq, Repr

/-- TS interface `SearchParams { query: string; page: number; }`. -/
structure SearchParams where
  query : String
  page : Nat
deriving DecidableEq, Repr

/-- TS interface `GetLatestParams { page: number; }`. -/
structure GetLatestParams where
  page : Nat
deriving DecidableEq, Repr

/-- TS interface `UpdateSyncAction { inodesSynced: number; totalInodes: number; }`. -/
structure UpdateSyncAction where
  inodesSynced : Nat
  totalInodes : Nat
deriving DecidableEq, Repr

/-- TS interface `UpdateSearchResultsAction { data: Inode[]; total: number; }`. -/
structure UpdateSearchResultsAction where
  data : List Inode
  total : Nat
deriving DecidableEq, Repr

/-- The observable state of `class InodeStore`. -/
structure InodeStore where
  /-- field `searchResults: Inode[] = []` -/
  searchResults : List Inode
  /-- field `pages: number = 1` -/
  pages : Nat
  /-- field `resultsPerPage: number` (set in the constructor) -/
  resultsPerPage : Nat
  /-- field `inodesSynced: number = 0` -/
  inodesSynced : Nat
  /-- field `totalInodesToSync: number = Infinity` -/
  totalInodesToSync : ℕ∞
  /-- the scope identifier the `InodeDatabase` connection was opened with -/
  contractAddress : String
deriving DecidableEq

/-- The constructor: `new InodeStore(rootStore, contractAddress, resultsPerPage)`.
Field initialisers give `searchResults = []`, `pages = 1`, `inodesSynced = 0`,
`totalInodesToSync = Infinity`; the body stores `resultsPerPage` and binds the
database connection scoped to `contractAddress`. -/
def InodeStore.new (contractAddress : String) (resultsPerPage : Nat) : InodeStore :=
  { searchResults := []
    pages := 1
    resultsPerPage := resultsPerPage
    inodesSynced := 0
    totalInodesToSync := ⊤
    contractAddress := contractAddress }

/-- Embedding of `Math.ceil(total / resultsPerPage)` for a non-negative integer `total` and
a positive integer divisor: JavaScript real division followed by `Math.ceil`
agrees with natural ceiling division `(total + P - 1) / P` there (proved below
as `jsMathCeilDiv_eq_ceil`). -/
def jsMathCeilDiv (total P : Nat) : Nat :=
  (total + P - 1) / P

/-- Getter `@computed get isDbSyncing()` — `this.inodesSynced === this.totalInodesToSync`. -/
def InodeStore.isDbSyncing (s : InodeStore) : Bool :=
  decide ((s.inodesSynced : ℕ∞) = s.totalInodesToSync)

/-- Action `updateSyncProgress` — sets both sync fields from the action. -/
def InodeStore.updateSyncProgress (s : InodeStore) (params : UpdateSyncAction) : InodeStore :=
  { s with
    inodesSynced := params.inodesSynced
    totalInodesToSync := (params.totalInodes : ℕ∞) }

/-- Action `updateSearchResults` — replaces the items and recomputes
`pages = Math.ceil(params.total / this.resultsPerPage)`. -/
def InodeStore.updateSearchResults (s : InodeStore) (params : UpdateSearchResultsAction) :
    InodeStore :=
  { s with
    searchResults := params.data
    pages := jsMathCeilDiv params.total s.resultsPerPage }

/-- Action `clearResults() {}` — an empty, never-called private action. -/
def InodeStore.clearResults (s : InodeStore) : InodeStore :=
  s

/-- Method `async search(params)` — computes `limit = resultsPerPage`,
`offset = resultsPerPage * params.page`, awaits `db.search(query, limit, offset)`
and applies `updateSearchResults`.  The outcome pair is the store state after
the promise settles and the rejection propagated to the caller, if any. -/
def InodeStore.search (dbSearch : String → Nat → Nat → Except DbErr Pageable)
    (s : InodeStore) (params : SearchParams) : InodeStore × Option DbErr :=
  let limit := s.resultsPerPage
  let offset := s.resultsPerPage * params.page
  match dbSearch params.query limit offset with
  | .error e => (s, some e)
  | .ok searchResults =>
      (s.updateSearchResults { data := searchResults.data, total := searchResults.total }, none)

/-- Method `async getLatest(params)` — as `search`, but awaiting `db.latest(limit, offset)`. -/
def InodeStore.getLatest (dbLatest : Nat → Nat → Except DbErr Pageable)
    (s : InodeStore) (params : GetLatestParams) : InodeStore × Option DbErr :=
  let limit := s.resultsPerPage
  let offset := s.resultsPerPage * params.page
  match dbLatest limit offset with
  | .error e => (s, some e)
  | .ok searchResults =>
      (s.updateSearchResults { data := searchResults.data, total := searchResults.total }, none)

/-- Method `async clear()` — awaits `db.clearData()`, then sets `searchResults = []`.
Nothing else is touched: `pages`, `inodesSynced` and `totalInodesToSync`
keep their values. -/
def InodeStore.clear (dbClearData : Except DbErr Unit) (s : InodeStore) :
    InodeStore × Option DbErr :=
  match dbClearData with
  | .error e => (s, some e)
  | .ok _ => ({ s with searchResults := [] }, none)

/-- The body of the `async initiator` closure inside `init()`: awaits
`db.getSyncState()` and applies `updateSyncProgress` with the fetched
snapshot.  A rejection of `getSyncState` escapes the closure un-caught. -/
def InodeStore.initiator (dbGetSyncState : Except DbErr SyncState) (s : InodeStore) :
    Except DbErr InodeStore :=
  match dbGetSyncState with
  | .error e => .error e
  | .ok syncState =>
      .ok (s.updateSyncProgress
        { inodesSynced := syncState.numSynced, totalInodes := syncState.total })

/-- Method `init(): void` — builds `initiator` and calls it *without* awaiting or
returning the promise (`initiator();`).  The method returns `void`
immediately; a rejection of the discarded promise is an unhandled rejection,
unobservable by `init`'s caller, and leaves the store state unchanged. -/
def InodeStore.init (dbGetSyncState : Except DbErr SyncState) (s : InodeStore) : InodeStore :=
  match InodeStore.initiator dbGetSyncState s with
  | .error _ => s
  | .ok s2 => s2

/-- The callback `init` registers with `db.startSync`.  Arguments are the
`(err, syncState)` the Index Database invokes it with.  Outcome: `.error` if
the callback throws (`throw Error("Result must exist")`), otherwise the store
state after the call paired with whether `console.warn` was invoked. -/
def InodeStore.initSyncCallback (s : InodeStore) (err : Option DbErr)
    (syncState : Option SyncState) : Except String (InodeStore × Bool) :=
  match err with
  | some _ => .ok (s, true)
  | none =>
      match syncState with
      | none => .error "Result must exist"
      | some st =>
          .ok (s.updateSyncProgress
            { inodesSynced := st.numSynced, totalInodes := st.total }, false)

/-! ### A small event semantics for reachable store states

Every way the source mutates the store state: a `startSync` callback
invocation, the `init` fetch, the two query methods (with the settled
outcome of their one database call), and `clear`. -/

/-- Decidable equality for settled promise outcomes. -/
instance exceptDecEq {ε α : Type} [DecidableEq ε] [DecidableEq α] :
    DecidableEq (Except ε α) := fun a b =>
  match a, b with
  | .error e1, .error e2 =>
      if h : e1 = e2 then isTrue (by rw [h]) else isFalse (by intro hh; cases hh; exact h rfl)
  | .error _, .ok _ => isFalse (by intro hh; cases hh)
  | .ok _, .error _ => isFalse (by intro hh; cases hh)
  | .ok v1, .ok v2 =>
      if h : v1 = v2 then isTrue (by rw [h]) else isFalse (by intro hh; cases hh; exact h rfl)

/-- One state-changing occurrence in the life of the store. -/
inductive StoreEvent where
  | syncCb (err : Option DbErr) (syncState : Option SyncState)
  | doInit (outcome : Except DbErr SyncState)
  | doSearch (outcome : Except DbErr Pageable) (params : SearchParams)
  | doLatest (outcome : Except DbErr Pageable) (params : GetLatestParams)
  | doClear (outcome : Except DbErr Unit)
deriving DecidableEq, Repr

/-- The store state after one event.  A callback that throws, or a method
whose database call rejects, leaves the state as it was. -/
def applyEvent (s : InodeStore) : StoreEvent → InodeStore
  | .syncCb err st =>
      match s.initSyncCallback err st with
      | .error _ => s
      | .ok (s2, _) => s2
  | .doInit o => InodeStore.init o s
  | .doSearch o p => (InodeStore.search (fun _ _ _ => o) s p).1
  | .doLatest o p => (InodeStore.getLatest (fun _ _ => o) s p).1
  | .doClear o => (InodeStore.clear o s).1

/-- The store state after a sequence of events. -/
def runEvents (s : InodeStore) (es : List StoreEvent) : InodeStore :=
  es.foldl applyEvent s

/-- The spec's sync invariant: whenever `total` is finite, `synced ≤ total`. -/
def SyncInv (s : InodeStore) : Prop :=
  ∀ n : Nat, s.totalInodesToSync = (n : ℕ∞) → s.inodesSynced ≤ n

/-- A sync snapshot respecting the collaborator's contract. -/
def snapshotOk (st : SyncState) : Bool :=
  decide (st.numSynced ≤ st.total)

/-- An event whose carried snapshot (if any) respects the collaborator's
contract `synced ≤ total`. -/
def eventOk : StoreEvent → Bool
  | .syncCb _ (some st) => snapshotOk st
  | .doInit (.ok st) => snapshotOk st
  | _ => true

/-- Helper: a single well-formed event preserves the sync invariant. -/
lemma applyEvent_syncInv {s : InodeStore} {e : StoreEvent}
    (hs : SyncInv s) (he : eventOk e = true) : SyncInv (applyEvent s e) := by
  cases e with
  | syncCb err st =>
      cases err with
      | some e0 => simpa [applyEvent, InodeStore.initSyncCallback] using hs
      | none =>
          cases st with
          | none => simpa [applyEvent, InodeStore.initSyncCallback] using hs
          | some snap =>
              intro n hn
              simp only [applyEvent, InodeStore.initSyncCallback,
                InodeStore.updateSyncProgress] at hn ⊢
              have htot : snap.total = n := ENat.coe_inj.mp hn
              have hok : snap.numSynced ≤ snap.total := by
                simpa [eventOk, snapshotOk] using he
              omega
  | doInit o =>
      cases o with
      | error e0 => simpa [applyEvent, InodeStore.init, InodeStore.initiator] using hs
      | ok snap =>
          intro n hn
          simp only [applyEvent, InodeStore.init, InodeStore.initiator,
            InodeStore.updateSyncProgress] at hn ⊢
          have htot : snap.total = n := ENat.coe_inj.mp hn
          have hok : snap.numSynced ≤ snap.total := by
            simpa [eventOk, snapshotOk] using he
          omega
  | doSearch o p =>
      intro n hn
      cases o with
      | error e0 => exact hs n (by simpa [applyEvent, InodeStore.search] using hn)
      | ok r =>
          exact hs n (by simpa [applyEvent, InodeStore.search,
            InodeStore.updateSearchResults] using hn)
  | doLatest o p =>
      intro n hn
      cases o with
      | error e0 => exact hs n (by simpa [applyEvent, InodeStore.getLatest] using hn)
      | ok r =>
          exact hs n (by simpa [applyEvent, InodeStore.getLatest,
            InodeStore.updateSearchResults] using hn)
  | doClear o =>
      intro n hn
      cases o with
      | error e0 => exact hs n (by simpa [applyEvent, InodeStore.clear] using hn)
      | ok u => exact hs n (by simpa [applyEvent, InodeStore.clear] using hn)

/-- Helper: the invariant is preserved along any well-formed event sequence. -/
lemma runEvents_syncInv {s : InodeStore} (hs : SyncInv s) (es : List StoreEvent)
    (hes : ∀ e ∈ es, eventOk e = true) : SyncInv (runEvents s es) := by
  induction es generalizing s with
  | nil => simpa [runEvents] using hs
  | cons e es ih =>
      have h1 : eventOk e = true := hes e (List.mem_cons_self e es)
      have h2 : ∀ x ∈ es, eventOk x = true := fun x hx => hes x (List.mem_cons_of_mem e hx)
      simpa [runEvents] using ih (applyEvent_syncInv hs h1) h2

/-- Helper: a fresh store satisfies the sync invariant vacuously. -/
lemma new_syncInv (addr : String) (P : Nat) : SyncInv (InodeStore.new addr P) := by
  intro n hn
  exact absurd hn.symm (ENat.coe_ne_top n)

/-! ### Claims -/

/-- C1 (code bug evidence): on a store whose `pages` is 3 (obtained by a
`getLatest` that returned 27 records at 10 per page), a `clear()` whose
`clearData` purge resolves empties `searchResults` and propagates no error,
but leaves `pages` at 3 — the result page's `pageCount` is *not* reset to 0
as the claim (and the spec, which notes "pageCount should also reset")
requires.  The dead, empty `clearResults()` action in the source marks the
intended reset that was never implemented. -/
theorem clear_leaves_pageCount_unreset :
    (InodeStore.clear (Except.ok ())
        ((InodeStore.getLatest (fun _ _ => Except.ok (Pageable.mk [] 27))
          (InodeStore.new "0xabc" 10) (GetLatestParams.mk 2)).1)).2 = none
    ∧ (InodeStore.clear (Except.ok ())
        ((InodeStore.getLatest (fun _ _ => Except.ok (Pageable.mk [] 27))
          (InodeStore.new "0xabc" 10) (GetLatestParams.mk 2)).1)).1.searchResults = []
    ∧ (InodeStore.clear (Except.ok ())
        ((InodeStore.getLatest (fun _ _ => Except.ok (Pageable.mk [] 27))
          (InodeStore.new "0xabc" 10) (GetLatestParams.mk 2)).1)).1.pages = 3
    ∧ (InodeStore.clear (Except.ok ())
        ((InodeStore.getLatest (fun _ _ => Except.ok (Pageable.mk [] 27))
          (InodeStore.new "0xabc" 10) (GetLatestParams.mk 2)).1)).1.pages ≠ 0 := by
  refine ⟨rfl, rfl, rfl, by decide⟩

/-- C2 (counterexample): when the initial `getSyncState` fetch rejects, the
inner `initiator` promise does reject with that error, but `init` — which
calls `initiator()` without awaiting or returning it — returns normally with
the store unchanged: the caller of `init` cannot observe the rejection,
contradicting the claim that it surfaces to whatever invoked the method. -/
theorem init_rejection_unobservable_cex :
    InodeStore.initiator (Except.error (DbErr.mk "db down")) (InodeStore.new "0xabc" 10)
      = Except.error (DbErr.mk "db down")
    ∧ InodeStore.init (Except.error (DbErr.mk "db down")) (InodeStore.new "0xabc" 10)
      = InodeStore.new "0xabc" 10 :=
  ⟨rfl, rfl⟩

/-- C2 (amended): for every run of `init()` in which `getSyncState` rejects,
the error is not caught inside the `initiator` closure (its promise rejects
with exactly that error), but the rejection does not reach `init`'s caller:
`init` discards the floating promise and returns with the store state
unchanged, so the error is lost as an unhandled promise rejection. -/
theorem init_fetch_rejection_dropped (e : DbErr) (s : InodeStore) :
    InodeStore.initiator (Except.error e) s = Except.error e
    ∧ InodeStore.init (Except.error e) s = s :=
  ⟨rfl, rfl⟩

/-- C3 (counterexample): a freshly constructed store has `pages = 1`, not 0,
refuting the claim that the result page's `pageCount` starts at 0. -/
theorem new_store_pages_nonzero_cex :
    (InodeStore.new "0xabc" 10).pages = 1 ∧ (InodeStore.new "0xabc" 10).pages ≠ 0 := by
  decide

/-- C3 (amended): for every freshly constructed store, before any operation
or event, sync progress is `{synced = 0, total = unbounded}` and the result
items are empty, but the page count initialiser is 1 (not 0); the page size
is stored as given. -/
theorem new_store_initial_state (addr : String) (P : Nat) (hP : 0 < P) :
    (InodeStore.new addr P).searchResults = []
    ∧ (InodeStore.new addr P).pages = 1
    ∧ (InodeStore.new addr P).inodesSynced = 0
    ∧ (InodeStore.new addr P).totalInodesToSync = ⊤
    ∧ (InodeStore.new addr P).resultsPerPage = P :=
  ⟨rfl, rfl, rfl, rfl, rfl⟩

/-- C3 (witness): the amended statement at a concrete store. -/
theorem new_store_initial_state_witness :
    0 < 10
    ∧ ((InodeStore.new "0xabc" 10).searchResults = []
      ∧ (InodeStore.new "0xabc" 10).pages = 1
      ∧ (InodeStore.new "0xabc" 10).inodesSynced = 0
      ∧ (InodeStore.new "0xabc" 10).totalInodesToSync = ⊤
      ∧ (InodeStore.new "0xabc" 10).resultsPerPage = 10) :=
  ⟨by decide, new_store_initial_state "0xabc" 10 (by decide)⟩

/-- C4: the completion indicator `isDbSyncing` holds iff `inodesSynced`
equals `totalInodesToSync`, and — being recomputed from the latest fields —
it is `false` on a fresh store (total unbounded) after the event
`{synced 5, total 20}` and `true` after then applying `{synced 20, total 20}`. -/
theorem isDbSyncing_iff_synced_eq_total :
    (∀ s : InodeStore, s.isDbSyncing = true ↔ (s.inodesSynced : ℕ∞) = s.totalInodesToSync)
    ∧ (InodeStore.new "0xabc" 10).totalInodesToSync = ⊤
    ∧ ((InodeStore.new "0xabc" 10).updateSyncProgress (UpdateSyncAction.mk 5 20)).isDbSyncing
        = false
    ∧ (((InodeStore.new "0xabc" 10).updateSyncProgress
          (UpdateSyncAction.mk 5 20)).updateSyncProgress
        (UpdateSyncAction.mk 20 20)).isDbSyncing = true := by
  refine ⟨fun s => ?_, rfl, by decide, by decide⟩
  simp [InodeStore.isDbSyncing]

/-- C5: every dispatched query, in search and latest mode alike, goes to the
database with `limit = resultsPerPage` and `offset = resultsPerPage * page`:
the outcome of either method depends on the database oracle only through its
value at exactly those arguments. -/
theorem query_dispatch_limit_offset
    (dbSearch dbSearch2 : String → Nat → Nat → Except DbErr Pageable)
    (dbLatest dbLatest2 : Nat → Nat → Except DbErr Pageable)
    (s : InodeStore) (pS : SearchParams) (pL : GetLatestParams)
    (hP : 0 < s.resultsPerPage)
    (hS : dbSearch pS.query s.resultsPerPage (s.resultsPerPage * pS.page)
        = dbSearch2 pS.query s.resultsPerPage (s.resultsPerPage * pS.page))
    (hL : dbLatest s.resultsPerPage (s.resultsPerPage * pL.page)
        = dbLatest2 s.resultsPerPage (s.resultsPerPage * pL.page)) :
    InodeStore.search dbSearch s pS = InodeStore.search dbSearch2 s pS
    ∧ InodeStore.getLatest dbLatest s pL = InodeStore.getLatest dbLatest2 s pL := by
  constructor
  · simp only [InodeStore.search, hS]
  · simp only [InodeStore.getLatest, hL]

/-- C5 (witness): two search oracles (and two latest oracles) agreeing only
at `limit = 10`, `offset = 10`, on a store with page size 10 and page index 1. -/
theorem query_dispatch_limit_offset_witness :
    0 < (InodeStore.new "0xabc" 10).resultsPerPage
    ∧ ((fun _ _ _ => Except.ok (Pageable.mk [] 27)
          : String → Nat → Nat → Except DbErr Pageable)
        (SearchParams.mk "q" 1).query (InodeStore.new "0xabc" 10).resultsPerPage
        ((InodeStore.new "0xabc" 10).resultsPerPage * (SearchParams.mk "q" 1).page)
      = (fun _ l _ => if l = 10 then Except.ok (Pageable.mk [] 27)
            else Except.error (DbErr.mk "off-point")
          : String → Nat → Nat → Except DbErr Pageable)
        (SearchParams.mk "q" 1).query (InodeStore.new "0xabc" 10).resultsPerPage
        ((InodeStore.new "0xabc" 10).resultsPerPage * (SearchParams.mk "q" 1).page))
    ∧ ((fun _ _ => Except.ok (Pageable.mk [] 27) : Nat → Nat → Except DbErr Pageable)
        (InodeStore.new "0xabc" 10).resultsPerPage
        ((InodeStore.new "0xabc" 10).resultsPerPage * (GetLatestParams.mk 1).page)
      = (fun l _ => if l = 10 then Except.ok (Pageable.mk [] 27)
            else Except.error (DbErr.mk "off-point")
          : Nat → Nat → Except DbErr Pageable)
        (InodeStore.new "0xabc" 10).resultsPerPage
        ((InodeStore.new "0xabc" 10).resultsPerPage * (GetLatestParams.mk 1).page))
    ∧ (InodeStore.search (fun _ _ _ => Except.ok (Pageable.mk [] 27))
          (InodeStore.new "0xabc" 10) (SearchParams.mk "q" 1)
        = InodeStore.search
            (fun _ l _ => if l = 10 then Except.ok (Pageable.mk [] 27)
              else Except.error (DbErr.mk "off-point"))
            (InodeStore.new "0xabc" 10) (SearchParams.mk "q" 1)
      ∧ InodeStore.getLatest (fun _ _ => Except.ok (Pageable.mk [] 27))
          (InodeStore.new "0xabc" 10) (GetLatestParams.mk 1)
        = InodeStore.getLatest
            (fun l _ => if l = 10 then Except.ok (Pageable.mk [] 27)
              else Except.error (DbErr.mk "off-point"))
            (InodeStore.new "0xabc" 10) (GetLatestParams.mk 1)) :=
  ⟨by decide, by decide, by decide,
    query_dispatch_limit_offset _ _ _ _ _ _ _ (by decide) (by decide) (by decide)⟩

/-- Auxiliary: for a positive divisor, the natural ceiling division used in
the embedding computes the ceiling of the exact rational quotient, which is
what `Math.ceil(total / P)` computes on these integer inputs. -/
lemma jsMathCeilDiv_eq_ceil (t P : Nat) (hP : 0 < P) :
    jsMathCeilDiv t P = ⌈(t : ℚ) / (P : ℚ)⌉₊ := by
  have hPQ : (0 : ℚ) < (P : ℚ) := by exact_mod_cast hP
  apply le_antisymm
  · have hle : (t : ℚ) / (P : ℚ) ≤ (⌈(t : ℚ) / (P : ℚ)⌉₊ : ℚ) := Nat.le_ceil _
    have h1 : (t : ℚ) ≤ (⌈(t : ℚ) / (P : ℚ)⌉₊ : ℚ) * (P : ℚ) := (div_le_iff₀ hPQ).mp hle
    have h2 : t ≤ ⌈(t : ℚ) / (P : ℚ)⌉₊ * P := by exact_mod_cast h1
    unfold jsMathCeilDiv
    rw [Nat.div_le_iff_le_mul_add_pred hP]
    have h3 : t ≤ P * ⌈(t : ℚ) / (P : ℚ)⌉₊ := by rw [Nat.mul_comm]; exact h2
    generalize P * ⌈(t : ℚ) / (P : ℚ)⌉₊ = m at h3 ⊢
    omega
  · unfold jsMathCeilDiv
    rw [Nat.le_div_iff_mul_le hP]
    have h3 : (⌈(t : ℚ) / (P : ℚ)⌉₊ : ℚ) < (t : ℚ) / (P : ℚ) + 1 :=
      Nat.ceil_lt_add_one (by positivity)
    have h4 : (⌈(t : ℚ) / (P : ℚ)⌉₊ : ℚ) * (P : ℚ) < ((t : ℚ) / (P : ℚ) + 1) * (P : ℚ) :=
      mul_lt_mul_of_pos_right h3 hPQ
    rw [add_mul, one_mul, div_mul_cancel₀ _ (ne_of_gt hPQ)] at h4
    have h5 : ⌈(t : ℚ) / (P : ℚ)⌉₊ * P < t + P := by exact_mod_cast h4
    generalize ⌈(t : ℚ) / (P : ℚ)⌉₊ * P = m at h5 ⊢
    omega

/-- C6: every applied query result sets `pages` to the ceiling of
`total / resultsPerPage`; in particular a total of 0 yields 0 pages. -/
theorem updateSearchResults_pageCount_ceil (s : InodeStore)
    (act : UpdateSearchResultsAction) (hP : 0 < s.resultsPerPage) :
    (s.updateSearchResults act).pages = ⌈(act.total : ℚ) / (s.resultsPerPage : ℚ)⌉₊
    ∧ (act.total = 0 → (s.updateSearchResults act).pages = 0) := by
  constructor
  · simpa [InodeStore.updateSearchResults] using
      jsMathCeilDiv_eq_ceil act.total s.resultsPerPage hP
  · intro h0
    simp only [InodeStore.updateSearchResults, jsMathCeilDiv, h0, Nat.zero_add]
    exact Nat.div_eq_of_lt (by omega)

/-- C6 (witness): applying a result with total 27 at page size 10 gives
`pages = ceil(27 / 10) = 3`. -/
theorem updateSearchResults_pageCount_ceil_witness :
    0 < (InodeStore.new "0xabc" 10).resultsPerPage
    ∧ (((InodeStore.new "0xabc" 10).updateSearchResults
          (UpdateSearchResultsAction.mk [] 27)).pages
        = ⌈(((UpdateSearchResultsAction.mk [] 27).total : ℚ))
            / ((InodeStore.new "0xabc" 10).resultsPerPage : ℚ)⌉₊
      ∧ ((UpdateSearchResultsAction.mk ([] : List Inode) 27).total = 0
          → ((InodeStore.new "0xabc" 10).updateSearchResults
              (UpdateSearchResultsAction.mk [] 27)).pages = 0)) :=
  ⟨by decide, updateSearchResults_pageCount_ceil _ _ (by decide)⟩

/-- C7: when the database rejects a query — search or latest — the method
settles with exactly the previous store state (items, pages and all other
fields retained) and propagates that rejection to its caller. -/
theorem query_rejection_propagates
    (dbSearch : String → Nat → Nat → Except DbErr Pageable)
    (dbLatest : Nat → Nat → Except DbErr Pageable)
    (s : InodeStore) (pS : SearchParams) (pL : GetLatestParams) (e1 e2 : DbErr)
    (hS : dbSearch pS.query s.resultsPerPage (s.resultsPerPage * pS.page)
        = Except.error e1)
    (hL : dbLatest s.resultsPerPage (s.resultsPerPage * pL.page) = Except.error e2) :
    InodeStore.search dbSearch s pS = (s, some e1)
    ∧ InodeStore.getLatest dbLatest s pL = (s, some e2) := by
  constructor
  · simp only [InodeStore.search, hS]
  · simp only [InodeStore.getLatest, hL]

/-- C7 (witness): rejecting oracles at a concrete store; the store state is
returned untouched and the rejection is surfaced. -/
theorem query_rejection_propagates_witness :
    ((fun _ _ _ => Except.error (DbErr.mk "boom")
        : String → Nat → Nat → Except DbErr Pageable)
      (SearchParams.mk "q" 1).query (InodeStore.new "0xabc" 10).resultsPerPage
      ((InodeStore.new "0xabc" 10).resultsPerPage * (SearchParams.mk "q" 1).page)
      = Except.error (DbErr.mk "boom"))
    ∧ ((fun _ _ => Except.error (DbErr.mk "boom2") : Nat → Nat → Except DbErr Pageable)
      (InodeStore.new "0xabc" 10).resultsPerPage
      ((InodeStore.new "0xabc" 10).resultsPerPage * (GetLatestParams.mk 1).page)
      = Except.error (DbErr.mk "boom2"))
    ∧ (InodeStore.search (fun _ _ _ => Except.error (DbErr.mk "boom"))
          (InodeStore.new "0xabc" 10) (SearchParams.mk "q" 1)
        = (InodeStore.new "0xabc" 10, some (DbErr.mk "boom"))
      ∧ InodeStore.getLatest (fun _ _ => Except.error (DbErr.mk "boom2"))
          (InodeStore.new "0xabc" 10) (GetLatestParams.mk 1)
        = (InodeStore.new "0xabc" 10, some (DbErr.mk "boom2"))) :=
  ⟨rfl, rfl, query_rejection_propagates _ _ _ _ _ _ _ rfl rfl⟩

/-- C8: the `startSync` callback — on an error argument it returns normally
with the store unchanged after logging a warning; on neither error nor
snapshot it throws ("Result must exist"); on a snapshot it applies
`updateSyncProgress`, a single action that replaces `inodesSynced` and
`totalInodesToSync` together with exactly the snapshot's values, touching
nothing else. -/
theorem startSync_callback_behaviour (s : InodeStore) (e : DbErr)
    (ost : Option SyncState) (st : SyncState) :
    s.initSyncCallback (some e) ost = Except.ok (s, true)
    ∧ s.initSyncCallback none none = Except.error "Result must exist"
    ∧ s.initSyncCallback none (some st)
        = Except.ok (s.updateSyncProgress (UpdateSyncAction.mk st.numSynced st.total), false)
    ∧ (s.updateSyncProgress (UpdateSyncAction.mk st.numSynced st.total)).inodesSynced
        = st.numSynced
    ∧ (s.updateSyncProgress (UpdateSyncAction.mk st.numSynced st.total)).totalInodesToSync
        = (st.total : ℕ∞)
    ∧ (s.updateSyncProgress (UpdateSyncAction.mk st.numSynced st.total)).searchResults
        = s.searchResults
    ∧ (s.updateSyncProgress (UpdateSyncAction.mk st.numSynced st.total)).pages = s.pages :=
  ⟨rfl, rfl, rfl, rfl, rfl, rfl, rfl⟩

/-- C9 (counterexample): the store does not enforce `synced ≤ total` — a
single sync event carrying the ill-formed snapshot `{synced 5, total 3}`
drives a fresh store into a reachable state with finite total 3 and
synced 5, refuting the claimed invariant for arbitrary event sequences. -/
theorem sync_invariant_violated_cex :
    (runEvents (InodeStore.new "0xabc" 10)
        [StoreEvent.syncCb none (some (SyncState.mk 5 3))]).totalInodesToSync
      = ((3 : Nat) : ℕ∞)
    ∧ (runEvents (InodeStore.new "0xabc" 10)
        [StoreEvent.syncCb none (some (SyncState.mk 5 3))]).inodesSynced = 5
    ∧ ¬ SyncInv (runEvents (InodeStore.new "0xabc" 10)
        [StoreEvent.syncCb none (some (SyncState.mk 5 3))]) := by
  refine ⟨by decide, by decide, fun h => ?_⟩
  have h5 := h 3 (by decide)
  revert h5
  decide

/-- C9 (amended): whenever every applied snapshot respects the collaborator's
contract `synced ≤ total` (which the store itself never enforces), every
state reachable from a fresh store by any sequence of operations and sync
events satisfies `synced ≤ total` whenever the total is finite. -/
theorem sync_invariant_of_contract_events (addr : String) (P : Nat)
    (es : List StoreEvent) (hes : ∀ e ∈ es, eventOk e = true) :
    SyncInv (runEvents (InodeStore.new addr P) es) :=
  runEvents_syncInv (new_syncInv addr P) es hes

/-- C9 (witness): the invariant after the two contract-respecting events of
the spec's Scenario A. -/
theorem sync_invariant_of_contract_events_witness :
    (∀ e ∈ [StoreEvent.syncCb none (some (SyncState.mk 5 20)),
            StoreEvent.syncCb none (some (SyncState.mk 20 20))], eventOk e = true)
    ∧ SyncInv (runEvents (InodeStore.new "0xabc" 10)
        [StoreEvent.syncCb none (some (SyncState.mk 5 20)),
         StoreEvent.syncCb none (some (SyncState.mk 20 20))]) :=
  ⟨by decide, sync_invariant_of_contract_events _ _ _ (by decide)⟩

/-- C10: neither `search` nor `getLatest` ever touches the sync-progress
fields — whatever the database oracle returns (resolution or rejection),
`inodesSynced` and `totalInodesToSync` after the call equal their values
before it. -/
theorem query_preserves_sync_progress
    (dbSearch : String → Nat → Nat → Except DbErr Pageable)
    (dbLatest : Nat → Nat → Except DbErr Pageable)
    (s : InodeStore) (pS : SearchParams) (pL : GetLatestParams) :
    (InodeStore.search dbSearch s pS).1.inodesSynced = s.inodesSynced
    ∧ (InodeStore.search dbSearch s pS).1.totalInodesToSync = s.totalInodesToSync
    ∧ (InodeStore.getLatest dbLatest s pL).1.inodesSynced = s.inodesSynced
    ∧ (InodeStore.getLatest dbLatest s pL).1.totalInodesToSync = s.totalInodesToSync := by
  refine ⟨?_, ?_, ?_, ?_⟩ <;>
    · simp only [InodeStore.search, InodeStore.getLatest]
      split <;> simp [InodeStore.updateSearchResults]
